import Mathlib

/-!
Verification development for the interval-consistency and work-selection
engine of a data-pipeline work tracker.

The engine persists "interval records" (one per claimed query window) in an
external store and manipulates them only through set-based queries.  We give
a shallow embedding: the store is a list of records in the order the store
delivers rows, each SQL query issued by the engine is translated into the
corresponding list computation, and the Python post-processing (ISO 8601
rendering of timestamps, empty-result branching) is translated into Lean
functions.  Timestamps are modelled as seconds since the Unix epoch
(`Nat`); the `DATE(ts)` bucket of a timestamp is `ts / 86400`.
-/

/-- Number of seconds in a civil day. -/
def secondsPerDay : Nat := 86400

/-- Day bucket of a timestamp: `DATE(ts)` in the store, `datetime.date()` in
the engine, for timestamps modelled as seconds since the epoch. -/
def dayOf (ts : Nat) : Nat := ts / secondsPerDay

/-- A persisted interval record, mirroring the columns of the tracked table:
scope keys, half-open window `[query_window_start_ts, query_window_end_ts)`,
the derived day-bucket columns, and the work status. -/
structure Record where
  pipeline_name : String
  index_name : String
  query_window_start_ts : Nat
  query_window_end_ts : Nat
  query_window_start_day : Nat
  query_window_end_day : Nat
  pipeline_status : String
deriving DecidableEq, Repr

/-- The day-bucket columns are derived from the window timestamps:
`start_day = date(window_start)` and `end_day = date(window_end)`. -/
def WellFormedRecord (r : Record) : Prop :=
  r.query_window_start_day = dayOf r.query_window_start_ts ∧
  r.query_window_end_day = dayOf r.query_window_end_ts

instance (r : Record) : Decidable (WellFormedRecord r) := by
  unfold WellFormedRecord; infer_instance

/-! ### ISO 8601 rendering

`datetime.isoformat()` applied to an epoch-second timestamp.  The civil
date is recovered with the standard era-based algorithm. -/

/-- Civil date `(year, month, day)` of a count of days since 1970-01-01. -/
def civilFromDays (z0 : Nat) : Nat × Nat × Nat :=
  let z := z0 + 719468
  let era := z / 146097
  let doe := z % 146097
  let yoe := (doe - doe / 1460 + doe / 36524 - doe / 146096) / 365
  let y := yoe + era * 400
  let doy := doe - (365 * yoe + yoe / 4 - yoe / 100)
  let mp := (5 * doy + 2) / 153
  let d := doy - (153 * mp + 2) / 5 + 1
  let m := if mp < 10 then mp + 3 else mp - 9
  (if m ≤ 2 then y + 1 else y, m, d)

/-- Zero-padded two-digit decimal rendering. -/
def pad2 (n : Nat) : String :=
  if n < 10 then "0" ++ toString n else toString n

/-- Zero-padded four-digit decimal rendering. -/
def pad4 (n : Nat) : String :=
  if n < 10 then "000" ++ toString n
  else if n < 100 then "00" ++ toString n
  else if n < 1000 then "0" ++ toString n
  else toString n

/-- `datetime.isoformat()` of an epoch-second timestamp:
`YYYY-MM-DDTHH:MM:SS`. -/
def isoformat (ts : Nat) : String :=
  let days := ts / secondsPerDay
  let secs := ts % secondsPerDay
  let ymd := civilFromDays days
  pad4 ymd.1 ++ "-" ++ pad2 ymd.2.1 ++ "-" ++ pad2 ymd.2.2 ++ "T" ++
    pad2 (secs / 3600) ++ ":" ++ pad2 (secs % 3600 / 60) ++ ":" ++ pad2 (secs % 60)

/-- A record as returned across the engine boundary: the dict built by the
selection operations, in which every timestamp (`datetime`) field has been
converted to its ISO 8601 textual form and all other columns are passed
through unchanged. -/
structure RecordOut where
  pipeline_name : String
  index_name : String
  query_window_start_ts : String
  query_window_end_ts : String
  query_window_start_day : Nat
  query_window_end_day : Nat
  pipeline_status : String
deriving DecidableEq, Repr

/-- The per-field conversion performed by the selection operations: each
`datetime` value is replaced by `val.isoformat()`, every other value is kept. -/
def recordToIso (r : Record) : RecordOut :=
  { pipeline_name := r.pipeline_name
    index_name := r.index_name
    query_window_start_ts := isoformat r.query_window_start_ts
    query_window_end_ts := isoformat r.query_window_end_ts
    query_window_start_day := r.query_window_start_day
    query_window_end_day := r.query_window_end_day
    pipeline_status := r.pipeline_status }

/-! ### Sorting

`ORDER BY` is modelled as a stable insertion sort on the delivered row
list: rows that compare equal keep the order in which the store delivered
them. -/

/-- Insert `a` into `l` in front of the first element `b` with `le a b`. -/
def insertLe (le : α → α → Bool) (a : α) : List α → List α
  | [] => [a]
  | b :: l => if le a b then a :: b :: l else b :: insertLe le a l

/-- Stable insertion sort by the comparison `le`. -/
def orderBy (le : α → α → Bool) : List α → List α
  | [] => []
  | a :: l => insertLe le a (orderBy le l)

/-! ### Overlap Detector: single-candidate admission check

`find_overlapping_records_for_input` issues one query: a day-bucket
pre-filter CTE (`query_window_start_day <= end_day AND
query_window_end_day >= start_day` plus the scope equalities) followed by
the exact open-interval test (`query_window_start_ts < end_ts AND
query_window_end_ts > start_ts`) over the pre-filtered rows. -/

/-- The rows returned by the admission-check query of
`find_overlapping_records_for_input`, for candidate window
`[start_ts, end_ts)` in scope `(pipeline_name, index_name)`:
first the day-bucket pre-filter CTE, then the exact open-interval test. -/
def find_overlapping_records_for_input (store : List Record)
    (pipeline_name index_name : String) (start_ts end_ts : Nat) : List Record :=
  let start_day := dayOf start_ts
  let end_day := dayOf end_ts
  let filtered_day_records := store.filter fun r =>
    decide (r.query_window_start_day ≤ end_day) &&
    decide (start_day ≤ r.query_window_end_day) &&
    (r.pipeline_name == pipeline_name) && (r.index_name == index_name)
  filtered_day_records.filter fun r =>
    decide (r.query_window_start_ts < end_ts) &&
    decide (start_ts < r.query_window_end_ts)

/-- Modelled from the spec: the exact open-interval overlap test alone,
applied to every stored record of the scope with no day-bucket pre-filter.
Stated for comparison with `find_overlapping_records_for_input`. -/
def find_overlapping_exact_only (store : List Record)
    (pipeline_name index_name : String) (start_ts end_ts : Nat) : List Record :=
  store.filter fun r =>
    (r.pipeline_name == pipeline_name) && (r.index_name == index_name) &&
    decide (r.query_window_start_ts < end_ts) &&
    decide (start_ts < r.query_window_end_ts)

/-! ### Overlap Detector: full-day diagnostic self-join

`find_overlapping_query_windows` restricts the table to the rows whose
window intersects the day `[day 00:00, day+1 00:00)` for the scope, then
self-joins on the open-interval test together with
`t1.query_window_start_ts != t2.query_window_start_ts`, projecting the two
window pairs, ordered by `(source_window_start_ts, overlaps_with_start_ts)`. -/

/-- One output row of the diagnostic self-join. -/
structure OverlapRow where
  source_window_start_ts : Nat
  source_window_end_ts : Nat
  overlaps_with_start_ts : Nat
  overlaps_with_end_ts : Nat
deriving DecidableEq, Repr

/-- `ORDER BY source_window_start_ts, overlaps_with_start_ts`. -/
def overlapRowLe (a b : OverlapRow) : Bool :=
  decide (a.source_window_start_ts < b.source_window_start_ts) ||
  ((a.source_window_start_ts == b.source_window_start_ts) &&
   decide (a.overlaps_with_start_ts ≤ b.overlaps_with_start_ts))

/-- The rows returned by the diagnostic query of
`find_overlapping_query_windows` for the given day bucket and scope. -/
def find_overlapping_query_windows (store : List Record)
    (pipeline_name index_name : String) (day : Nat) : List OverlapRow :=
  let dayStart := day * secondsPerDay
  let dayEnd := (day + 1) * secondsPerDay
  let filtered_day_data := store.filter fun r =>
    (r.pipeline_name == pipeline_name) && (r.index_name == index_name) &&
    decide (r.query_window_start_ts < dayEnd) &&
    decide (dayStart < r.query_window_end_ts)
  let joined := filtered_day_data.flatMap fun t1 =>
    filtered_day_data.filterMap fun t2 =>
      if t1.query_window_start_ts < t2.query_window_end_ts ∧
         t2.query_window_start_ts < t1.query_window_end_ts ∧
         t1.query_window_start_ts ≠ t2.query_window_start_ts then
        some ⟨t1.query_window_start_ts, t1.query_window_end_ts,
              t2.query_window_start_ts, t2.query_window_end_ts⟩
      else none
  orderBy overlapRowLe joined

/-! ### Continuity Checker

`get_discontinuous_query_windows` selects `(query_window_start_ts,
query_window_end_ts)` for the rows of the given day bucket and scope,
computes `LAG(query_window_end_ts) OVER (ORDER BY query_window_start_ts)`,
keeps the rows whose start differs from the end of the previous row, projects
`(prev_end_ts, query_window_start_ts)`, and orders the result by the gap
start.  The Python wrapper renders the gap timestamps in ISO 8601 form and
sets `is_continuous` to whether the result set is empty. -/

/-- The `(start_ts, end_ts)` projection of the rows of one day bucket and
scope, in delivered order. -/
def dayRows (store : List Record) (day : Nat)
    (pipeline_name index_name : String) : List (Nat × Nat) :=
  (store.filter fun r =>
    (dayOf r.query_window_start_ts == day) &&
    (r.pipeline_name == pipeline_name) && (r.index_name == index_name)).map
    fun r => (r.query_window_start_ts, r.query_window_end_ts)

/-- Sort key of the window walk and of the final gap ordering: ascending
first component. -/
def fstLe (a b : Nat × Nat) : Bool := decide (a.1 ≤ b.1)

/-- The `LAG` walk: over consecutive pairs `(p, q)` of the ordered windows,
emit `(p.2, q.1)` whenever `q.1 ≠ p.2`. -/
def lagGaps : List (Nat × Nat) → List (Nat × Nat)
  | p :: q :: rest => (if q.1 = p.2 then [] else [(p.2, q.1)]) ++ lagGaps (q :: rest)
  | _ => []

/-- The gap rows returned by the continuity query for one day bucket and
scope, ordered by gap start. -/
def discontinuitiesRaw (store : List Record) (day : Nat)
    (pipeline_name index_name : String) : List (Nat × Nat) :=
  orderBy fstLe (lagGaps (orderBy fstLe (dayRows store day pipeline_name index_name)))

/-- The value returned by `get_discontinuous_query_windows`: the
`is_continuous` flag (true exactly when the query returned no rows) and the
gap records with both timestamps rendered in ISO 8601 form. -/
def get_discontinuous_query_windows (store : List Record) (day : Nat)
    (pipeline_name index_name : String) : Bool × List (String × String) :=
  let gaps := discontinuitiesRaw store day pipeline_name index_name
  (gaps.isEmpty, gaps.map fun g => (isoformat g.1, isoformat g.2))

/-! ### Status Work Selector

`get_oldest_record_by_status` / `get_latest_record_by_status` issue
`SELECT * ... WHERE pipeline_status = status ORDER BY query_window_start_ts
ASC (resp. DESC) LIMIT 1` and convert every timestamp field of the selected
row to its ISO 8601 form; they return no record when the result set is
empty. -/

/-- Ascending comparison on `query_window_start_ts`. -/
def startTsLe (a b : Record) : Bool :=
  decide (a.query_window_start_ts ≤ b.query_window_start_ts)

/-- Descending comparison on `query_window_start_ts` (`ORDER BY ... DESC`). -/
def startTsGe (a b : Record) : Bool :=
  decide (b.query_window_start_ts ≤ a.query_window_start_ts)

/-- Row-level semantics of `get_oldest_record_by_status`: filter by status,
order ascending by `query_window_start_ts`, keep the first row, convert its
timestamp fields to ISO 8601 form. -/
def get_oldest_record_core (rows : List Record) (pipeline_status : String) :
    Option RecordOut :=
  match orderBy startTsLe (rows.filter fun r => r.pipeline_status == pipeline_status) with
  | [] => none
  | r :: _ => some (recordToIso r)

/-- Row-level semantics of `get_latest_record_by_status`: as for the oldest
selection but ordered descending. -/
def get_latest_record_core (rows : List Record) (pipeline_status : String) :
    Option RecordOut :=
  match orderBy startTsGe (rows.filter fun r => r.pipeline_status == pipeline_status) with
  | [] => none
  | r :: _ => some (recordToIso r)

/-! ### Store boundary, failure wrapping, and operation runs

`SnowflakeQueryClient.fetch_all_rows_as_dataframe` performs the store call
inside a try block and re-raises any failure as one uniform
`RuntimeError("Failed to fetch rows as DataFrame: ...")` carrying the
original cause.  The engine operations call the client exactly once, branch
on the (possibly empty) result, and on failure log and re-raise the same
error unchanged.  A store behaviour is modelled as either the delivered
rows or a failure; an operation run returns its outcome together with the
number of client calls it made. -/

/-- An arbitrary failure of the external store call. -/
structure StoreFailure where
  message : String
deriving DecidableEq, Repr

/-- Errors surfaced by the engine: a validation rejection raised before any
store call, or the uniform execution failure of the client with the original
cause attached. -/
inductive EngineError where
  | validation (msg : String)
  | execution (cause : StoreFailure)
deriving DecidableEq, Repr

/-- `SnowflakeQueryClient.fetch_all_rows_as_dataframe`: pass the delivered
rows through, and wrap any store failure into the single uniform execution
failure keeping the original cause. -/
def fetch_all_rows_as_dataframe (behavior : Except StoreFailure (List Record)) :
    Except EngineError (List Record) :=
  match behavior with
  | .ok rows => .ok rows
  | .error f => .error (.execution f)

/-- The four recognised work statuses. -/
def statusVocabulary : List String := ["pending", "in_progress", "completed", "failed"]

/-- A full run of `get_oldest_record_by_status` against a store behaviour:
the operation builds its query from the given status with no validation,
calls the client once, and either returns the selected record (or `none`)
or re-raises the client error unchanged.  The second component counts the
client calls made. -/
def get_oldest_record_by_status_run (behavior : Except StoreFailure (List Record))
    (pipeline_status : String) : Except EngineError (Option RecordOut) × Nat :=
  match fetch_all_rows_as_dataframe behavior with
  | .ok rows => (.ok (get_oldest_record_core rows pipeline_status), 1)
  | .error e => (.error e, 1)

/-- A full run of `get_latest_record_by_status`, as for the oldest
selection. -/
def get_latest_record_by_status_run (behavior : Except StoreFailure (List Record))
    (pipeline_status : String) : Except EngineError (Option RecordOut) × Nat :=
  match fetch_all_rows_as_dataframe behavior with
  | .ok rows => (.ok (get_latest_record_core rows pipeline_status), 1)
  | .error e => (.error e, 1)

/-! ### The store calls issued by each operation

Each engine operation hands the store a query text and a placeholder
mapping.  The texts below reproduce the Python f-strings with whitespace
normalised to single spaces: only the pieces spliced with `++` vary between
calls, everything else is a fixed literal. -/

/-- A parameterized store call: the query text and the placeholder-name to
value mapping passed to `execute`. -/
structure StoreCall where
  query_text : String
  parameters : List (String × String)
deriving DecidableEq, Repr

/-- The single-quote character, spliced around interpolated SQL literals. -/
def sqlQuote : String := String.singleton (Char.ofNat 39)

/-- The date of an ISO 8601 timestamp string: its `YYYY-MM-DD` prefix
(`datetime.fromisoformat(ts).date().isoformat()`). -/
def isoDateOf (ts : String) : String := ts.take 10

/-- The store call issued by `find_overlapping_records_for_input`: the day
bounds and timestamps travel in the parameter mapping, only the table name
is spliced into the text. -/
def find_overlapping_records_store_call (table pipeline_name index_name : String)
    (start_ts end_ts : String) : StoreCall :=
  { query_text :=
      "WITH filtered_day_records AS ( SELECT * FROM " ++ table ++
      " WHERE query_window_start_day <= %(end_day)s AND query_window_end_day >= %(start_day)s" ++
      " AND pipeline_name = %(pipeline_name)s AND index_name = %(index_name)s )" ++
      " SELECT * FROM filtered_day_records WHERE query_window_start_ts < %(end_ts)s" ++
      " AND query_window_end_ts > %(start_ts)s"
    parameters :=
      [("pipeline_name", pipeline_name), ("index_name", index_name),
       ("start_day", isoDateOf start_ts), ("end_day", isoDateOf end_ts),
       ("start_ts", start_ts), ("end_ts", end_ts)] }

/-- The store call issued by `count_records_by_pipeline_status`. -/
def count_records_store_call (table_name pipeline_status : String) : StoreCall :=
  { query_text :=
      "SELECT COUNT(*) FROM " ++ table_name ++ " WHERE pipeline_status = %(pipeline_status)s"
    parameters := [("pipeline_status", pipeline_status)] }

/-- The store call issued by `get_oldest_record_by_status`. -/
def get_oldest_record_store_call (table_name pipeline_status : String) : StoreCall :=
  { query_text :=
      "SELECT * FROM " ++ table_name ++
      " WHERE pipeline_status = %(pipeline_status)s ORDER BY query_window_start_ts ASC LIMIT 1"
    parameters := [("pipeline_status", pipeline_status)] }

/-- The store call issued by `get_latest_record_by_status`. -/
def get_latest_record_store_call (table_name pipeline_status : String) : StoreCall :=
  { query_text :=
      "SELECT * FROM " ++ table_name ++
      " WHERE pipeline_status = %(pipeline_status)s ORDER BY query_window_start_ts DESC LIMIT 1"
    parameters := [("pipeline_status", pipeline_status)] }

/-- The store call issued by `get_discontinuous_query_windows`: the day and
both scope values travel in the parameter mapping. -/
def get_discontinuous_store_call (table_name day pipeline_name index_name : String) :
    StoreCall :=
  { query_text :=
      "WITH ordered_windows AS ( SELECT query_window_start_ts, query_window_end_ts," ++
      " LAG(query_window_end_ts) OVER ( ORDER BY query_window_start_ts ) AS prev_end_ts FROM " ++
      table_name ++
      " WHERE DATE(query_window_start_ts) = %(day)s AND pipeline_name = %(pipeline_name)s" ++
      " AND index_name = %(index_name)s ) SELECT prev_end_ts AS missing_query_window_start_ts," ++
      " query_window_start_ts AS missing_query_window_end_ts FROM ordered_windows" ++
      " WHERE prev_end_ts IS NOT NULL AND query_window_start_ts != prev_end_ts" ++
      " ORDER BY missing_query_window_start_ts"
    parameters :=
      [("day", day), ("pipeline_name", pipeline_name), ("index_name", index_name)] }

/-- The store call issued by `find_overlapping_query_windows`: the scope
values travel in the parameter mapping, but both day-boundary literals are
built from `date_str` and spliced directly into the query text. -/
def find_overlapping_query_windows_store_call
    (table_name pipeline_name index_name date_str : String) : StoreCall :=
  { query_text :=
      "WITH filtered_day_data AS ( SELECT * FROM " ++ table_name ++
      " WHERE pipeline_name = %(pipeline_name)s AND index_name = %(index_name)s" ++
      " AND query_window_start_ts < DATEADD(day, 1, " ++ sqlQuote ++ date_str ++ sqlQuote ++ ")" ++
      " AND query_window_end_ts > " ++ sqlQuote ++ date_str ++ " 00:00:00" ++ sqlQuote ++ " )" ++
      " SELECT t1.query_window_start_ts AS source_window_start_ts," ++
      " t1.query_window_end_ts AS source_window_end_ts," ++
      " t2.query_window_start_ts AS overlaps_with_start_ts," ++
      " t2.query_window_end_ts AS overlaps_with_end_ts" ++
      " FROM filtered_day_data t1 INNER JOIN filtered_day_data t2" ++
      " ON t1.query_window_start_ts < t2.query_window_end_ts" ++
      " AND t1.query_window_end_ts > t2.query_window_start_ts" ++
      " AND t1.query_window_start_ts != t2.query_window_start_ts" ++
      " ORDER BY source_window_start_ts, overlaps_with_start_ts;"
    parameters := [("pipeline_name", pipeline_name), ("index_name", index_name)] }

/-! ### Concrete stores used in witnesses and counterexamples

All timestamps fall on day 0 (1970-01-01), so every day-bucket column is 0. -/

/-- A well-formed stored interval `[100, 200)` on day 0. -/
def recA : Record := ⟨"p", "i", 100, 200, 0, 0, "pending"⟩

/-- A second interval with the same start `100` but end `300`: distinct from
`recA`, same scope, intersecting range. -/
def recB : Record := ⟨"p", "i", 100, 300, 0, 0, "pending"⟩

/-- An interval starting strictly before `recA` and `recB`. -/
def recEarly : Record := ⟨"p", "i", 50, 80, 0, 0, "pending"⟩

/-- The selection example of the spec: pending windows starting at 09:00, 07:00
and 11:00, in that delivered order. -/
def selectorRows : List Record :=
  [⟨"p", "i", 32400, 36000, 0, 0, "pending"⟩,
   ⟨"p", "i", 25200, 28800, 0, 0, "pending"⟩,
   ⟨"p", "i", 39600, 43200, 0, 0, "pending"⟩]

/-- The 07:00 record of `selectorRows` (the oldest pending one). -/
def rec0700 : Record := ⟨"p", "i", 25200, 28800, 0, 0, "pending"⟩

/-- The 11:00 record of `selectorRows` (the latest pending one). -/
def rec1100 : Record := ⟨"p", "i", 39600, 43200, 0, 0, "pending"⟩

/-- A tiling of `[0, 400)` on day 0 with boundaries `0,100,200,300,400`
from which the interior interval `[100, 200)` has been removed. -/
def tilingStoreWithHole : List Record :=
  [⟨"p", "i", 0, 100, 0, 0, "completed"⟩,
   ⟨"p", "i", 200, 300, 0, 0, "completed"⟩,
   ⟨"p", "i", 300, 400, 0, 0, "completed"⟩]
theorem insertLe_perm (le : α → α → Bool) (a : α) (l : List α) :
    List.Perm (insertLe le a l) (a :: l) := by
  induction l with
  | nil => exact List.Perm.refl _
  | cons b l ih =>
      simp only [insertLe]
      by_cases h : le a b
      · simp [h]
      · simp only [h, if_neg, Bool.false_eq_true, not_false_iff, if_false]
        exact (ih.cons b).trans (List.Perm.swap a b l)

theorem orderBy_perm (le : α → α → Bool) (l : List α) :
    List.Perm (orderBy le l) l := by
  induction l with
  | nil => exact List.Perm.refl _
  | cons a l ih =>
      exact (insertLe_perm le a (orderBy le l)).trans (ih.cons a)

theorem mem_insertLe {le : α → α → Bool} {a x : α} {l : List α} :
    x ∈ insertLe le a l ↔ x = a ∨ x ∈ l := by
  rw [(insertLe_perm le a l).mem_iff]; simp

theorem pairwise_insertLe {le : α → α → Bool}
    (htot : ∀ a b, le a b = true ∨ le b a = true)
    (htrans : ∀ a b c, le a b = true → le b c = true → le a c = true)
    {a : α} {l : List α} (hl : l.Pairwise (fun x y => le x y = true)) :
    (insertLe le a l).Pairwise (fun x y => le x y = true) := by
  induction l with
  | nil => simp [insertLe]
  | cons b l ih =>
      rcases List.pairwise_cons.mp hl with ⟨hb, hl'⟩
      simp only [insertLe]
      by_cases h : le a b
      · simp only [h, if_true]
        refine List.pairwise_cons.mpr ⟨?_, hl⟩
        intro c hc
        rcases List.mem_cons.mp hc with hc | hc
        · exact hc ▸ h
        · exact htrans a b c h (hb c hc)
      · have hba : le b a = true := (htot a b).resolve_left h
        simp only [h, Bool.false_eq_true, if_false]
        refine List.pairwise_cons.mpr ⟨?_, ih hl'⟩
        intro c hc
        rcases mem_insertLe.mp hc with hc | hc
        · exact hc ▸ hba
        · exact hb c hc

theorem pairwise_orderBy {le : α → α → Bool}
    (htot : ∀ a b, le a b = true ∨ le b a = true)
    (htrans : ∀ a b c, le a b = true → le b c = true → le a c = true)
    (l : List α) :
    (orderBy le l).Pairwise (fun x y => le x y = true) := by
  induction l with
  | nil => simp [orderBy]
  | cons a l ih => exact pairwise_insertLe htot htrans ih

theorem orderBy_eq_nil_iff {le : α → α → Bool} {l : List α} :
    orderBy le l = [] ↔ l = [] := by
  constructor
  · intro h
    have := orderBy_perm le l
    rw [h] at this
    exact (this.symm).eq_nil
  · intro h; subst h; rfl

/-- The head of the sorted list is a member of the input attaining the
minimum for `le`. -/
theorem orderBy_head_min {le : α → α → Bool}
    (htot : ∀ a b, le a b = true ∨ le b a = true)
    (htrans : ∀ a b c, le a b = true → le b c = true → le a c = true)
    {l rest : List α} {r : α} (h : orderBy le l = r :: rest) :
    r ∈ l ∧ ∀ x ∈ l, le r x = true := by
  have hperm := orderBy_perm le l
  rw [h] at hperm
  constructor
  · exact hperm.mem_iff.mp (List.mem_cons_self r rest)
  · intro x hx
    have hx' : x ∈ r :: rest := hperm.mem_iff.mpr hx
    rcases List.mem_cons.mp hx' with hx' | hx'
    · subst hx'
      exact (htot x x).elim id id
    · have hp := @pairwise_orderBy _ le htot htrans l
      rw [h] at hp
      exact (List.pairwise_cons.mp hp).1 x hx'


/-! ### Helper lemmas about the engine operations -/

/-- For well-formed records the day-bucket pre-filter keeps every record
that passes the exact open-interval test, so the two-phase filter equals
the exact filter over the scope. -/
theorem twoPhase_eq_exact (store : List Record) (pn idx : String) (s e : Nat)
    (hwf : ∀ r ∈ store, WellFormedRecord r) :
    find_overlapping_records_for_input store pn idx s e =
      find_overlapping_exact_only store pn idx s e := by
  simp only [find_overlapping_records_for_input, find_overlapping_exact_only,
    List.filter_filter]
  apply List.filter_congr
  intro r hr
  rcases hwf r hr with ⟨h1, h2⟩
  by_cases hts1 : r.query_window_start_ts < e
  · by_cases hts2 : s < r.query_window_end_ts
    · have hd1 : r.query_window_start_day ≤ dayOf e := by
        rw [h1]; exact Nat.div_le_div_right (Nat.le_of_lt hts1)
      have hd2 : dayOf s ≤ r.query_window_end_day := by
        rw [h2]; exact Nat.div_le_div_right (Nat.le_of_lt hts2)
      simp [hts1, hts2, hd1, hd2]
    · simp [hts2]
  · simp [hts1]

/-- Membership in the `LAG` walk output: exactly the boundary mismatches of
consecutive pairs. -/
theorem mem_lagGaps (g : Nat × Nat) :
    ∀ l : List (Nat × Nat),
      g ∈ lagGaps l ↔
        ∃ pre p q post, l = pre ++ p :: q :: post ∧ q.1 ≠ p.2 ∧ g = (p.2, q.1)
  | [] => by
      constructor
      · intro h; exact absurd h (List.not_mem_nil g)
      · rintro ⟨pre, p, q, post, h, -, -⟩
        have hl := congrArg List.length h
        simp [List.length_append] at hl
        omega
  | [x] => by
      constructor
      · intro h; exact absurd h (List.not_mem_nil g)
      · rintro ⟨pre, p, q, post, h, -, -⟩
        have hl := congrArg List.length h
        simp [List.length_append] at hl
        omega
  | x :: y :: rest => by
      have ih := mem_lagGaps g (y :: rest)
      have hexp : lagGaps (x :: y :: rest) =
          (if y.1 = x.2 then [] else [(x.2, y.1)]) ++ lagGaps (y :: rest) := rfl
      constructor
      · intro h
        rw [hexp] at h
        rcases List.mem_append.mp h with h | h
        · by_cases hxy : y.1 = x.2
          · simp [hxy] at h
          · simp only [hxy, if_false, List.mem_singleton] at h
            exact ⟨[], x, y, rest, rfl, hxy, h⟩
        · rcases ih.mp h with ⟨pre, p, q, post, hdec, hne, hg⟩
          exact ⟨x :: pre, p, q, post, by rw [List.cons_append, hdec], hne, hg⟩
      · rintro ⟨pre, p, q, post, hdec, hne, hg⟩
        rw [hexp]
        apply List.mem_append.mpr
        cases pre with
        | nil =>
            simp only [List.nil_append] at hdec
            injection hdec with h1 hdec'
            injection hdec' with h2 h3
            subst h1; subst h2
            left
            simp [hne, hg]
        | cons z pre' =>
            right
            apply ih.mpr
            simp only [List.cons_append] at hdec
            injection hdec with h1 hdec'
            exact ⟨pre', p, q, post, hdec', hne, hg⟩

theorem startTsLe_total : ∀ a b : Record, startTsLe a b = true ∨ startTsLe b a = true := by
  intro a b
  simp only [startTsLe, decide_eq_true_eq]
  omega

theorem startTsLe_trans : ∀ a b c : Record,
    startTsLe a b = true → startTsLe b c = true → startTsLe a c = true := by
  intro a b c
  simp only [startTsLe, decide_eq_true_eq]
  omega

theorem startTsGe_total : ∀ a b : Record, startTsGe a b = true ∨ startTsGe b a = true := by
  intro a b
  simp only [startTsGe, decide_eq_true_eq]
  omega

theorem startTsGe_trans : ∀ a b c : Record,
    startTsGe a b = true → startTsGe b c = true → startTsGe a c = true := by
  intro a b c
  simp only [startTsGe, decide_eq_true_eq]
  omega

theorem fstLe_total : ∀ a b : Nat × Nat, fstLe a b = true ∨ fstLe b a = true := by
  intro a b
  simp only [fstLe, decide_eq_true_eq]
  omega

theorem fstLe_trans : ∀ a b c : Nat × Nat,
    fstLe a b = true → fstLe b c = true → fstLe a c = true := by
  intro a b c
  simp only [fstLe, decide_eq_true_eq]
  omega

theorem get_oldest_core_eq_none_iff (rows : List Record) (status : String) :
    get_oldest_record_core rows status = none ↔
      ∀ r ∈ rows, r.pipeline_status ≠ status := by
  unfold get_oldest_record_core
  cases h : orderBy startTsLe (rows.filter fun r => r.pipeline_status == status) with
  | nil =>
      simp only [true_iff]
      intro r hr hst
      have hmem : r ∈ rows.filter (fun r => r.pipeline_status == status) :=
        List.mem_filter.mpr ⟨hr, by simp [hst]⟩
      rw [orderBy_eq_nil_iff.mp h] at hmem
      exact absurd hmem (List.not_mem_nil r)
  | cons r rest =>
      have hperm := orderBy_perm startTsLe (rows.filter fun r => r.pipeline_status == status)
      rw [h] at hperm
      have hmem := hperm.mem_iff.mp (List.mem_cons_self r rest)
      rcases List.mem_filter.mp hmem with ⟨hr, hst⟩
      refine iff_of_false (by simp) ?_
      intro hall
      exact hall r hr (by simpa using hst)

theorem get_oldest_core_spec_some (rows : List Record) (status : String) (out : RecordOut)
    (h : get_oldest_record_core rows status = some out) :
    ∃ r, r ∈ rows ∧ r.pipeline_status = status ∧ out = recordToIso r ∧
      ∀ x ∈ rows, x.pipeline_status = status →
        r.query_window_start_ts ≤ x.query_window_start_ts := by
  unfold get_oldest_record_core at h
  cases hh : orderBy startTsLe (rows.filter fun r => r.pipeline_status == status) with
  | nil => rw [hh] at h; exact absurd h (by simp)
  | cons r rest =>
      rw [hh] at h
      simp only [Option.some.injEq] at h
      obtain ⟨hmem, hmin⟩ := orderBy_head_min startTsLe_total startTsLe_trans hh
      rcases List.mem_filter.mp hmem with ⟨hr, hst⟩
      refine ⟨r, hr, by simpa using hst, h.symm, ?_⟩
      intro x hx hxst
      have hxf : x ∈ rows.filter (fun r => r.pipeline_status == status) :=
        List.mem_filter.mpr ⟨hx, by simp [hxst]⟩
      simpa [startTsLe] using hmin x hxf

theorem get_latest_core_eq_none_iff (rows : List Record) (status : String) :
    get_latest_record_core rows status = none ↔
      ∀ r ∈ rows, r.pipeline_status ≠ status := by
  unfold get_latest_record_core
  cases h : orderBy startTsGe (rows.filter fun r => r.pipeline_status == status) with
  | nil =>
      simp only [true_iff]
      intro r hr hst
      have hmem : r ∈ rows.filter (fun r => r.pipeline_status == status) :=
        List.mem_filter.mpr ⟨hr, by simp [hst]⟩
      rw [orderBy_eq_nil_iff.mp h] at hmem
      exact absurd hmem (List.not_mem_nil r)
  | cons r rest =>
      have hperm := orderBy_perm startTsGe (rows.filter fun r => r.pipeline_status == status)
      rw [h] at hperm
      have hmem := hperm.mem_iff.mp (List.mem_cons_self r rest)
      rcases List.mem_filter.mp hmem with ⟨hr, hst⟩
      refine iff_of_false (by simp) ?_
      intro hall
      exact hall r hr (by simpa using hst)

theorem get_latest_core_spec_some (rows : List Record) (status : String) (out : RecordOut)
    (h : get_latest_record_core rows status = some out) :
    ∃ r, r ∈ rows ∧ r.pipeline_status = status ∧ out = recordToIso r ∧
      ∀ x ∈ rows, x.pipeline_status = status →
        x.query_window_start_ts ≤ r.query_window_start_ts := by
  unfold get_latest_record_core at h
  cases hh : orderBy startTsGe (rows.filter fun r => r.pipeline_status == status) with
  | nil => rw [hh] at h; exact absurd h (by simp)
  | cons r rest =>
      rw [hh] at h
      simp only [Option.some.injEq] at h
      obtain ⟨hmem, hmin⟩ := orderBy_head_min startTsGe_total startTsGe_trans hh
      rcases List.mem_filter.mp hmem with ⟨hr, hst⟩
      refine ⟨r, hr, by simpa using hst, h.symm, ?_⟩
      intro x hx hxst
      have hxf : x ∈ rows.filter (fun r => r.pipeline_status == status) :=
        List.mem_filter.mpr ⟨hx, by simp [hxst]⟩
      simpa [startTsGe] using hmin x hxf

/-- Splitting off the head of the day-bucket row selection. -/
theorem dayRows_cons (r : Record) (store : List Record) (day : Nat) (pn idx : String) :
    dayRows (r :: store) day pn idx =
      (if (dayOf r.query_window_start_ts == day) && (r.pipeline_name == pn) &&
          (r.index_name == idx) then
        [(r.query_window_start_ts, r.query_window_end_ts)] else []) ++
      dayRows store day pn idx := by
  simp only [dayRows, List.filter_cons]
  by_cases h : (dayOf r.query_window_start_ts == day) && (r.pipeline_name == pn) &&
      (r.index_name == idx)
  · simp [h]
  · simp [h]

/-! ### Claims -/

/-- C1: for every scope and candidate window with `end_ts > start_ts`, over
a store of well-formed records, `find_overlapping_records_for_input`
returns exactly the stored records of the scope whose half-open window
satisfies `stored.window_start < candidate.end` and
`stored.window_end > candidate.start`; against a store holding a single
interval `A` of the scope the result contains `A` iff
`A.start < candidate.end` and `A.end > candidate.start`; and a stored
interval that merely touches the candidate (`A.end ≤ candidate.start` or
`candidate.end ≤ A.start`) yields an empty result. -/
theorem find_overlapping_admission_exact (store : List Record)
    (pn idx : String) (s e : Nat)
    (hwf : ∀ r ∈ store, WellFormedRecord r) (hse : s < e) :
    (find_overlapping_records_for_input store pn idx s e =
      store.filter fun r =>
        (r.pipeline_name == pn) && (r.index_name == idx) &&
        decide (r.query_window_start_ts < e) && decide (s < r.query_window_end_ts)) ∧
    (∀ A : Record, WellFormedRecord A → A.pipeline_name = pn → A.index_name = idx →
      (A ∈ find_overlapping_records_for_input [A] pn idx s e ↔
        A.query_window_start_ts < e ∧ s < A.query_window_end_ts)) ∧
    (∀ A : Record, WellFormedRecord A →
      A.query_window_end_ts ≤ s ∨ e ≤ A.query_window_start_ts →
      find_overlapping_records_for_input [A] pn idx s e = []) := by
  refine ⟨twoPhase_eq_exact store pn idx s e hwf, ?_, ?_⟩
  · intro A hA hpn hidx
    rw [twoPhase_eq_exact [A] pn idx s e (by
      intro r hr
      rw [List.mem_singleton] at hr
      exact hr ▸ hA)]
    simp [find_overlapping_exact_only, hpn, hidx]
  · intro A hA hdisj
    rw [twoPhase_eq_exact [A] pn idx s e (by
      intro r hr
      rw [List.mem_singleton] at hr
      exact hr ▸ hA)]
    simp only [find_overlapping_exact_only, List.filter_eq_nil_iff]
    intro r hr
    rw [List.mem_singleton] at hr
    subst hr
    rcases hdisj with hd | hd
    · have hne : ¬ (s < r.query_window_end_ts) := Nat.not_lt.mpr hd
      simp [hne]
    · have hne : ¬ (r.query_window_start_ts < e) := Nat.not_lt.mpr hd
      simp [hne]

/-- C1 witness: the admission-check characterisation at the concrete store
`[recA]` with candidate `[150, 250)`. -/
theorem find_overlapping_admission_exact_witness :
    (find_overlapping_records_for_input [recA] "p" "i" 150 250 =
      [recA].filter fun r =>
        (r.pipeline_name == "p") && (r.index_name == "i") &&
        decide (r.query_window_start_ts < 250) && decide (150 < r.query_window_end_ts)) ∧
    (∀ A : Record, WellFormedRecord A → A.pipeline_name = "p" → A.index_name = "i" →
      (A ∈ find_overlapping_records_for_input [A] "p" "i" 150 250 ↔
        A.query_window_start_ts < 250 ∧ 150 < A.query_window_end_ts)) ∧
    (∀ A : Record, WellFormedRecord A →
      A.query_window_end_ts ≤ 150 ∨ 250 ≤ A.query_window_start_ts →
      find_overlapping_records_for_input [A] "p" "i" 150 250 = []) :=
  find_overlapping_admission_exact [recA] "p" "i" 150 250 (by decide) (by decide)

/-- C2: evaluation at the failing input — two distinct records of the same
scope and day with identical `query_window_start_ts` and intersecting
ranges are NOT reported by the diagnostic self-join of
`find_overlapping_query_windows`, because its join condition excludes
pairs by start-time equality instead of by record identity. -/
theorem same_start_overlap_not_reported :
    recA ≠ recB ∧
    recA.pipeline_name = recB.pipeline_name ∧
    recA.index_name = recB.index_name ∧
    dayOf recA.query_window_start_ts = 0 ∧
    dayOf recB.query_window_start_ts = 0 ∧
    recA.query_window_start_ts = recB.query_window_start_ts ∧
    recA.query_window_start_ts < recB.query_window_end_ts ∧
    recB.query_window_start_ts < recA.query_window_end_ts ∧
    find_overlapping_query_windows [recA, recB] "p" "i" 0 = [] := by
  decide

/-- C3: the gaps returned for a day and scope are exactly the boundary
mismatches of consecutive pairs of the windows of the day sorted ascending by
`query_window_start_ts`; the gap list is ordered by gap start ascending;
`is_continuous` is true exactly when there is no gap; and removing the
interior interval `[100, 200)` from a full tiling of the day yields
exactly the single gap `(100, 200)`. -/
theorem gap_walk_characterization (store : List Record) (day : Nat)
    (pn idx : String) :
    (∀ g : Nat × Nat,
      g ∈ discontinuitiesRaw store day pn idx ↔
        ∃ pre p q post,
          orderBy fstLe (dayRows store day pn idx) = pre ++ p :: q :: post ∧
          q.1 ≠ p.2 ∧ g = (p.2, q.1)) ∧
    (discontinuitiesRaw store day pn idx).Pairwise (fun g g' => g.1 ≤ g'.1) ∧
    ((get_discontinuous_query_windows store day pn idx).1 = true ↔
      discontinuitiesRaw store day pn idx = []) ∧
    discontinuitiesRaw tilingStoreWithHole 0 "p" "i" = [(100, 200)] := by
  refine ⟨?_, ?_, ?_, by decide⟩
  · intro g
    rw [show discontinuitiesRaw store day pn idx =
        orderBy fstLe (lagGaps (orderBy fstLe (dayRows store day pn idx))) from rfl]
    rw [(orderBy_perm fstLe _).mem_iff]
    exact mem_lagGaps g _
  · have hp := pairwise_orderBy fstLe_total fstLe_trans
      (lagGaps (orderBy fstLe (dayRows store day pn idx)))
    refine hp.imp ?_
    intro a b hab
    simpa [fstLe] using hab
  · simp [get_discontinuous_query_windows, List.isEmpty_iff]

/-- C4: the oldest (resp. latest) selection returns `none` exactly when no
record has the given status, and otherwise returns, with every timestamp
field converted to its ISO 8601 textual form, a record of that status
attaining the minimum (resp. maximum) `query_window_start_ts`. -/
theorem status_selection_min_max (rows : List Record) (status : String) :
    (get_oldest_record_core rows status = none ↔
      ∀ r ∈ rows, r.pipeline_status ≠ status) ∧
    (∀ out, get_oldest_record_core rows status = some out →
      ∃ r, r ∈ rows ∧ r.pipeline_status = status ∧ out = recordToIso r ∧
        ∀ x ∈ rows, x.pipeline_status = status →
          r.query_window_start_ts ≤ x.query_window_start_ts) ∧
    (get_latest_record_core rows status = none ↔
      ∀ r ∈ rows, r.pipeline_status ≠ status) ∧
    (∀ out, get_latest_record_core rows status = some out →
      ∃ r, r ∈ rows ∧ r.pipeline_status = status ∧ out = recordToIso r ∧
        ∀ x ∈ rows, x.pipeline_status = status →
          x.query_window_start_ts ≤ r.query_window_start_ts) :=
  ⟨get_oldest_core_eq_none_iff rows status,
   fun out h => get_oldest_core_spec_some rows status out h,
   get_latest_core_eq_none_iff rows status,
   fun out h => get_latest_core_spec_some rows status out h⟩

/-- C4 witness: on pending windows starting at 09:00, 07:00 and 11:00 the
oldest selection picks the 07:00 record and the latest the 11:00 record. -/
theorem status_selection_min_max_witness :
    (∃ r, r ∈ selectorRows ∧ r.pipeline_status = "pending" ∧
      recordToIso rec0700 = recordToIso r ∧
      ∀ x ∈ selectorRows, x.pipeline_status = "pending" →
        r.query_window_start_ts ≤ x.query_window_start_ts) ∧
    (∃ r, r ∈ selectorRows ∧ r.pipeline_status = "pending" ∧
      recordToIso rec1100 = recordToIso r ∧
      ∀ x ∈ selectorRows, x.pipeline_status = "pending" →
        x.query_window_start_ts ≤ r.query_window_start_ts) :=
  ⟨(status_selection_min_max selectorRows "pending").2.1
      (recordToIso rec0700) (by decide),
   (status_selection_min_max selectorRows "pending").2.2.2
      (recordToIso rec1100) (by decide)⟩

/-- C5 counterexample: the selection operations do not validate the status
vocabulary — with the out-of-vocabulary status "bogus" against a non-empty
store they still make their store call and silently return no record,
instead of raising a validation error before any store call. -/
theorem bogus_status_not_rejected :
    ("bogus" ∉ statusVocabulary) ∧ selectorRows ≠ [] ∧
    get_oldest_record_by_status_run (Except.ok selectorRows) "bogus" =
      (Except.ok none, 1) ∧
    get_latest_record_by_status_run (Except.ok selectorRows) "bogus" =
      (Except.ok none, 1) := by
  refine ⟨by decide, by decide, rfl, rfl⟩

/-- C5 amended: the selection operations perform no status validation at
all — they never produce a validation error for any status value, always
issue their single store call, and when no record carries the given status
they silently return no record. -/
theorem selection_status_not_validated (behavior : Except StoreFailure (List Record))
    (status : String) :
    (∀ msg, (get_oldest_record_by_status_run behavior status).1 ≠
        Except.error (EngineError.validation msg)) ∧
    (∀ msg, (get_latest_record_by_status_run behavior status).1 ≠
        Except.error (EngineError.validation msg)) ∧
    (∀ rows, behavior = Except.ok rows →
      (∀ r ∈ rows, r.pipeline_status ≠ status) →
      get_oldest_record_by_status_run behavior status = (Except.ok none, 1) ∧
      get_latest_record_by_status_run behavior status = (Except.ok none, 1)) := by
  refine ⟨?_, ?_, ?_⟩
  · intro msg
    cases behavior <;>
      simp [get_oldest_record_by_status_run, fetch_all_rows_as_dataframe]
  · intro msg
    cases behavior <;>
      simp [get_latest_record_by_status_run, fetch_all_rows_as_dataframe]
  · rintro rows rfl hnone
    constructor
    · simp [get_oldest_record_by_status_run, fetch_all_rows_as_dataframe,
        (get_oldest_core_eq_none_iff rows status).mpr hnone]
    · simp [get_latest_record_by_status_run, fetch_all_rows_as_dataframe,
        (get_latest_core_eq_none_iff rows status).mpr hnone]

/-- C5 witness: the amended statement applied at status "bogus" against the
concrete pending store. -/
theorem selection_status_not_validated_witness :
    get_oldest_record_by_status_run (Except.ok selectorRows) "bogus" =
      (Except.ok none, 1) ∧
    get_latest_record_by_status_run (Except.ok selectorRows) "bogus" =
      (Except.ok none, 1) :=
  (selection_status_not_validated (Except.ok selectorRows) "bogus").2.2
    selectorRows rfl (by decide)

/-- C6: over well-formed records (day-bucket columns derived from the
window timestamps) the two-phase filter of
`find_overlapping_records_for_input` selects exactly the records selected
by the exact open-interval test alone — the pre-filter never excludes a
true overlap. -/
theorem two_phase_filter_refines_exact (store : List Record) (pn idx : String)
    (s e : Nat) (hwf : ∀ r ∈ store, WellFormedRecord r) :
    find_overlapping_records_for_input store pn idx s e =
      find_overlapping_exact_only store pn idx s e :=
  twoPhase_eq_exact store pn idx s e hwf

/-- C6 witness: the refinement at a concrete two-record store. -/
theorem two_phase_filter_refines_exact_witness :
    find_overlapping_records_for_input [recA, recB] "p" "i" 150 250 =
      find_overlapping_exact_only [recA, recB] "p" "i" 150 250 :=
  two_phase_filter_refines_exact [recA, recB] "p" "i" 150 250 (by decide)

/-- C7 counterexample: two permutations of the same store content — two
distinct pending records tying on `query_window_start_ts` — make both
selection operations return different records, so the result is not a
deterministic function of the store content: no stable secondary key is
applied. -/
theorem tie_break_depends_on_delivery_order :
    List.Perm [recA, recB] [recB, recA] ∧
    recA.pipeline_status = "pending" ∧ recB.pipeline_status = "pending" ∧
    recA.query_window_start_ts = recB.query_window_start_ts ∧ recA ≠ recB ∧
    get_oldest_record_core [recA, recB] "pending" ≠
      get_oldest_record_core [recB, recA] "pending" ∧
    get_latest_record_core [recA, recB] "pending" ≠
      get_latest_record_core [recB, recA] "pending" :=
  ⟨List.Perm.swap recB recA [], by decide, by decide, by decide, by decide,
   by decide, by decide⟩

/-- C7 amended: when exactly one record attains the minimal
`query_window_start_ts` among the records of the given status, the oldest
selection is a function of the store content alone: any two delivered
orders of the same records give the same result.  (With ties the result
depends on the delivered order, as the counterexample shows.) -/
theorem tie_free_selection_content_deterministic (l1 l2 : List Record)
    (status : String) (hperm : List.Perm l1 l2)
    (huniq : ∀ a ∈ l1, ∀ b ∈ l1,
      a.pipeline_status = status → b.pipeline_status = status →
      (∀ x ∈ l1, x.pipeline_status = status →
        a.query_window_start_ts ≤ x.query_window_start_ts) →
      (∀ x ∈ l1, x.pipeline_status = status →
        b.query_window_start_ts ≤ x.query_window_start_ts) →
      a = b) :
    get_oldest_record_core l1 status = get_oldest_record_core l2 status := by
  cases h1 : get_oldest_record_core l1 status with
  | none =>
      cases h2 : get_oldest_record_core l2 status with
      | none => rfl
      | some out =>
          obtain ⟨r, hr, hst, -, -⟩ := get_oldest_core_spec_some l2 status out h2
          exact absurd hst
            ((get_oldest_core_eq_none_iff l1 status).mp h1 r (hperm.mem_iff.mpr hr))
  | some out1 =>
      cases h2 : get_oldest_record_core l2 status with
      | none =>
          obtain ⟨r, hr, hst, -, -⟩ := get_oldest_core_spec_some l1 status out1 h1
          exact absurd hst
            ((get_oldest_core_eq_none_iff l2 status).mp h2 r (hperm.mem_iff.mp hr))
      | some out2 =>
          obtain ⟨r1, hr1, hst1, ho1, hmin1⟩ :=
            get_oldest_core_spec_some l1 status out1 h1
          obtain ⟨r2, hr2, hst2, ho2, hmin2⟩ :=
            get_oldest_core_spec_some l2 status out2 h2
          have hr2' : r2 ∈ l1 := hperm.mem_iff.mpr hr2
          have hmin2' : ∀ x ∈ l1, x.pipeline_status = status →
              r2.query_window_start_ts ≤ x.query_window_start_ts := by
            intro x hx hxst
            exact hmin2 x (hperm.mem_iff.mp hx) hxst
          have heq : r1 = r2 := huniq r1 hr1 r2 hr2' hst1 hst2 hmin1 hmin2'
          rw [ho1, ho2, heq]

/-- C7 witness: with a unique minimal pending record, swapping the
delivered order leaves the oldest selection unchanged. -/
theorem tie_free_selection_content_deterministic_witness :
    get_oldest_record_core [recA, recEarly] "pending" =
      get_oldest_record_core [recEarly, recA] "pending" :=
  tie_free_selection_content_deterministic [recA, recEarly] [recEarly, recA]
    "pending" (List.Perm.swap recEarly recA []) (by decide)

set_option maxRecDepth 4096 in
/-- C8 counterexample: `find_overlapping_query_windows` splices the
day-boundary literals derived from `date_str` into the query text, so two
calls that differ only in the data value `date_str` (same table, same
scope) hand the store different query texts while binding the same
parameter mapping. -/
theorem overlap_scan_query_text_varies_with_data :
    (find_overlapping_query_windows_store_call "t" "p" "i" "2025-01-01").query_text ≠
      (find_overlapping_query_windows_store_call "t" "p" "i" "2025-01-02").query_text ∧
    (find_overlapping_query_windows_store_call "t" "p" "i" "2025-01-01").parameters =
      (find_overlapping_query_windows_store_call "t" "p" "i" "2025-01-02").parameters := by
  exact ⟨by decide, rfl⟩

/-- C8 amended: every engine operation except `find_overlapping_query_windows`
passes all data values through the parameter mapping, so its query text is a
function of the table name alone; `find_overlapping_query_windows` passes
the scope values through parameters but interpolates the `date_str`-derived
day boundaries into the text, so its text is a function of the table name
and `date_str`. -/
theorem store_calls_parameterized (table : String)
    (pn pn' idx idx' sts sts' ets ets' st st' day day' date : String) :
    (find_overlapping_records_store_call table pn idx sts ets).query_text =
      (find_overlapping_records_store_call table pn' idx' sts' ets').query_text ∧
    (count_records_store_call table st).query_text =
      (count_records_store_call table st').query_text ∧
    (get_oldest_record_store_call table st).query_text =
      (get_oldest_record_store_call table st').query_text ∧
    (get_latest_record_store_call table st).query_text =
      (get_latest_record_store_call table st').query_text ∧
    (get_discontinuous_store_call table day pn idx).query_text =
      (get_discontinuous_store_call table day' pn' idx').query_text ∧
    (find_overlapping_query_windows_store_call table pn idx date).query_text =
      (find_overlapping_query_windows_store_call table pn' idx' date).query_text ∧
    ("pipeline_name", pn) ∈
      (find_overlapping_records_store_call table pn idx sts ets).parameters ∧
    ("start_ts", sts) ∈
      (find_overlapping_records_store_call table pn idx sts ets).parameters ∧
    ("pipeline_status", st) ∈ (get_oldest_record_store_call table st).parameters ∧
    ("day", day) ∈ (get_discontinuous_store_call table day pn idx).parameters := by
  refine ⟨rfl, rfl, rfl, rfl, rfl, rfl, ?_, ?_, ?_, ?_⟩ <;>
    simp [find_overlapping_records_store_call, get_oldest_record_store_call,
      get_discontinuous_store_call]

/-- C9: the client wraps a store failure into the single uniform execution
failure with the original cause attached, the selection operations re-raise
exactly that error to their caller, and every run makes exactly one client
call — no retry is performed. -/
theorem store_failure_wrapped_and_single_call (f : StoreFailure) (status : String)
    (behavior : Except StoreFailure (List Record)) :
    fetch_all_rows_as_dataframe (Except.error f) =
      Except.error (EngineError.execution f) ∧
    (get_oldest_record_by_status_run (Except.error f) status).1 =
      Except.error (EngineError.execution f) ∧
    (get_latest_record_by_status_run (Except.error f) status).1 =
      Except.error (EngineError.execution f) ∧
    (get_oldest_record_by_status_run behavior status).2 = 1 ∧
    (get_latest_record_by_status_run behavior status).2 = 1 := by
  refine ⟨rfl, rfl, rfl, ?_, ?_⟩ <;> cases behavior <;> rfl

/-- C10: the continuity check is independent of record status —
rewriting `pipeline_status` arbitrarily on every record leaves the
`is_continuous` flag and the gap list unchanged, since the gap walk selects
records only by day bucket, pipeline name and index name. -/
theorem continuity_status_independent (store : List Record) (day : Nat)
    (pn idx : String) (f : Record → String) :
    get_discontinuous_query_windows
        (store.map fun r => { r with pipeline_status := f r }) day pn idx =
      get_discontinuous_query_windows store day pn idx := by
  have h : dayRows (store.map fun r => { r with pipeline_status := f r }) day pn idx =
      dayRows store day pn idx := by
    induction store with
    | nil => rfl
    | cons r store ih =>
        rw [List.map_cons, dayRows_cons, dayRows_cons, ih]
  simp only [get_discontinuous_query_windows, discontinuitiesRaw, h]
